import Mathlib

/-!
Shallow embedding of the go-try retry library (github.com/mawngo/go-try, v2).

Source layout: the engine lives in `try.go` (`DoCtxWithOptions`,
`GetCtxWithOptions`, `combineErr`, `ErrRetryAttemptsExceed`), the configuration
in `options.go` (`Options`, `NewOptions`, the `With*` option constructors,
`Options.matchError`), and the backoff strategies in `backoff/backoff.go`.

Modelling decisions:
- Go `error` values form trees via `errors.Join`; in this code base `errors.Join`
  is only ever applied to two non-nil arguments, so errors are modelled as the
  inductive `GoError` with a binary `join2` constructor.  Sentinel errors made
  by `errors.New` are identified by their (distinct) message strings; the two
  context sentinels `context.Canceled` and `context.DeadlineExceeded` get their
  own constructors.  `errors.Is` becomes the structural chain test `errIs`.
- A nillable Go error is `Option GoError` (`none` = nil).
- The operation is modelled as a function from its invocation index (0-based)
  to its result; the optional `ctx` is modelled as `Option` of a function from
  the poll index (= number of invocations so far) to `ctx.Err()`'s value at
  that poll.  This captures any deterministic operation/context behaviour,
  including an operation that cancels its own context mid-run.
- Durations (`time.Duration`, int64 nanoseconds) are `Int`; attempt counters
  are `Nat`; Go's `int maxAttempts` is `Int`.
- `math.Pow(float64(m), float64(i-1))` in the exponential strategies is
  modelled as the integer power `m ^ (i - 1)` for attempt index `i ≥ 1`; for
  the integer magnitudes considered here (well below 2^53) the float
  computation is exact, so this is faithful on that range.
- `rand.Int63n(n)` panics when `n ≤ 0` and otherwise draws uniformly from
  `[0, n)`.  It is modelled as `randInt63n n draw : Option Int`, `none`
  representing the panic and `draw` an oracle for the drawn value; theorems
  that depend on the draw carry the hypothesis `0 ≤ draw < n`.
- `time.Sleep` and the `onRetry` handler have no effect on the returned
  value, so the engine model skips the sleep and only records whether a
  handler is configured.  The engine loop, which Go cannot prove terminating,
  is given explicit fuel; `none` means the fuel ran out before the loop
  returned.
-/

/-- Go errors: `base s` is a sentinel made by `errors.New` (distinct strings
model distinct sentinel identities), `canceled` and `deadlineExceeded` are the
two `context` package sentinels, and `join2 a b` is `errors.Join(a, b)` with
both arguments non-nil (the only way `errors.Join` is called in this code). -/
inductive GoError where
  | base : String → GoError
  | canceled : GoError
  | deadlineExceeded : GoError
  | join2 : GoError → GoError → GoError
deriving DecidableEq, Repr

/-- Model of `errors.Is(e, t)`: equality at each node, unwrapping join errors into both
children.  Base and context sentinels have no `Unwrap`. -/
def errIs : GoError → GoError → Bool
  | GoError.join2 a b, t => (GoError.join2 a b == t) || errIs a t || errIs b t
  | e, t => e == t

/-- Source: `var ErrRetryAttemptsExceed = errors.New("retry attempts exceed")` (try.go). -/
def ErrRetryAttemptsExceed : GoError := GoError.base "retry attempts exceed"

/-- Model of `combineErr(join bool, err error, last error) error` (try.go): if `last` is
nil return `err`; if `join` is set and `err` is a context error, return
`errors.Join(err, last)`; otherwise return `err`.  Both call sites pass a
non-nil `err`. -/
def combineErr (join : Bool) (err : GoError) (last : Option GoError) : GoError :=
  match last with
  | none => err
  | some l =>
    if join && (errIs err GoError.deadlineExceeded || errIs err GoError.canceled) then
      GoError.join2 err l
    else
      err

/-- A backoff strategy `func(err error, i int) time.Duration`
(backoff/backoff.go).  The extra `Int` argument is the oracle for the one
`rand.Int63n` draw a jittered strategy performs; `none` models the panic of
`rand.Int63n` on a non-positive bound. -/
def Strategy : Type := GoError → Nat → Int → Option Int

/-- Model of `rand.Int63n(n)`: panics (`none`) when `n ≤ 0`, otherwise returns the
drawn value, supplied here by the `draw` oracle. -/
def randInt63n (n draw : Int) : Option Int :=
  if n ≤ 0 then none else some draw

/-- Model of `backoff.NewFixedBackoff` (backoff/backoff.go). -/
def NewFixedBackoff (backoff : Int) : Strategy :=
  fun _ _ _ => some backoff

/-- Model of `backoff.NewBackoffWithJitter` (backoff/backoff.go): the wrapped strategy's
value plus an unconditional `rand.Int63n(jitter)` draw. -/
def NewBackoffWithJitter (backoff : Strategy) (jitter : Int) : Strategy :=
  fun e i draw => (backoff e i draw).bind fun b => (randInt63n jitter draw).map fun j => b + j

/-- Model of `backoff.NewRandomBackoff` (backoff/backoff.go):
`NewBackoffWithJitter(NewFixedBackoff(minBackoff), jitter)`. -/
def NewRandomBackoff (minBackoff jitter : Int) : Strategy :=
  NewBackoffWithJitter (NewFixedBackoff minBackoff) jitter

/-- Model of `backoff.NewExponentialBackoff` (backoff/backoff.go):
`initial * multiplier^(i-1)`, capped at `maximum` unless `maximum == 0`. -/
def NewExponentialBackoff (initialBackoff multiplier maximumBackoff : Int) : Strategy :=
  fun _ i _ =>
    let backoff := initialBackoff * multiplier ^ (i - 1)
    some (if maximumBackoff = 0 then backoff else min backoff maximumBackoff)

/-- Model of `backoff.NewExponentialRandomBackoff` (backoff/backoff.go): the jitter is
drawn unconditionally; with `maximum == 0` the uncapped value is returned; when
the uncapped value is `≥ maximum` the code returns `backoff - jitter` (the
jitter subtracted from the UNCAPPED value, `max(backoff - jitter + 0)` in the
source); otherwise `min(backoff + jitter, maximum)`. -/
def NewExponentialRandomBackoff (initialBackoff multiplier maximumBackoff jitter : Int) :
    Strategy :=
  fun _ i draw =>
    (randInt63n jitter draw).map fun j =>
      let backoff := initialBackoff * multiplier ^ (i - 1)
      if maximumBackoff = 0 then backoff
      else if backoff ≥ maximumBackoff then backoff - j
      else min (backoff + j) maximumBackoff

/-- Model of `backoff.NewIncrementalBackoff` (backoff/backoff.go):
`initial + incremental*(i-1)`, capped at `maximum` unless `maximum == 0`. -/
def NewIncrementalBackoff (initialBackoff incremental maximumBackoff : Int) : Strategy :=
  fun _ i _ =>
    let backoff := initialBackoff + incremental * ((i : Int) - 1)
    some (if maximumBackoff = 0 then backoff else min backoff maximumBackoff)

/-- Model of `backoff.NewIncrementalRandomBackoff` (backoff/backoff.go): same shape as
`NewExponentialRandomBackoff` with the incremental base value. -/
def NewIncrementalRandomBackoff (initialBackoff incremental maximumBackoff jitter : Int) :
    Strategy :=
  fun _ i draw =>
    (randInt63n jitter draw).map fun j =>
      let backoff := initialBackoff + incremental * ((i : Int) - 1)
      if maximumBackoff = 0 then backoff
      else if backoff ≥ maximumBackoff then backoff - j
      else min (backoff + j) maximumBackoff

/-- The configuration struct `Options` (options.go).  `onRetry` records only
whether a handler is configured, since handlers return nothing and cannot
influence the returned value. -/
structure Options where
  maxAttempts : Int
  matcher : Option (GoError → Bool)
  excludedMatcher : Option (GoError → Bool)
  backoffStrategy : Option Strategy
  onRetry : Bool
  joinCtxErr : Bool

/-- Model of `func (o Options) matchError(err error) bool` (options.go): excluded
matcher wins, then a missing matcher means "retry everything", else ask the
matcher.  Note there is no special case for context errors. -/
def Options.matchError (o : Options) (err : GoError) : Bool :=
  if (match o.excludedMatcher with | some ex => ex err | none => false) then false
  else match o.matcher with
       | some m => m err
       | none => true

/-- A `RetryOption` is `func(options *Options)`; each one only writes fields of
the struct it is handed, so it is modelled as a value transformer. -/
def RetryOption : Type := Options → Options

/-- Source: `const DefaultBackoff = 300 * time.Millisecond` in nanoseconds. -/
def DefaultBackoff : Int := 300000000

/-- Source: `const DefaultJitter = 100 * time.Millisecond` in nanoseconds. -/
def DefaultJitter : Int := 100000000

/-- Source: `const DefaultAttempts = 5`. -/
def DefaultAttempts : Int := 5

/-- Model of `NewOptions` (options.go): start from the defaults (jittered fixed
backoff, `DefaultAttempts`, no matchers, no handler, `joinCtxErr` false) and
apply the option functions in order. -/
def NewOptions (options : List RetryOption) : Options :=
  options.foldl (fun o f => f o)
    { maxAttempts := DefaultAttempts
      matcher := none
      excludedMatcher := none
      backoffStrategy := some (NewRandomBackoff DefaultBackoff DefaultJitter)
      onRetry := false
      joinCtxErr := false }

/-- Model of `WithAttempts` (options.go). -/
def WithAttempts (attempts : Int) : RetryOption :=
  fun o => { o with maxAttempts := attempts }

/-- Model of `WithUnlimitedAttempts` (options.go). -/
def WithUnlimitedAttempts : RetryOption :=
  fun o => { o with maxAttempts := 0 }

/-- Model of `WithJoinCtxErr` (options.go). -/
def WithJoinCtxErr : RetryOption :=
  fun o => { o with joinCtxErr := true }

/-- The matcher closure built by `WithRetryFor(err, errs...)` in the
`len(errs) > 0` branch (options.go): the loop body
`for i := range errs { return errors.Is(e, errs[i]) }` returns unconditionally
on the first element, so only the head of the combined list is ever consulted;
the trailing `return false` handles the (unreachable) empty list. -/
def retryForLoop (e : GoError) : List GoError → Bool
  | [] => false
  | t :: _ => errIs e t

/-- Model of `WithRetryFor(err, errs...)` (options.go): with a single error the matcher
is `errors.Is(e, err)`; with several, the combined list `err :: errs` is run
through the loop modelled by `retryForLoop`. -/
def WithRetryFor (err : GoError) (errs : List GoError) : RetryOption :=
  match errs with
  | [] => fun o => { o with matcher := some (fun e => errIs e err) }
  | _ => fun o => { o with matcher := some (fun e => retryForLoop e (err :: errs)) }

/-- Model of `WithNoRetryFor(err, errs...)` (options.go): same structure as
`WithRetryFor` but writing `excludedMatcher`. -/
def WithNoRetryFor (err : GoError) (errs : List GoError) : RetryOption :=
  match errs with
  | [] => fun o => { o with excludedMatcher := some (fun e => errIs e err) }
  | _ => fun o => { o with excludedMatcher := some (fun e => retryForLoop e (err :: errs)) }

/-- Model of `WithOptions(opt)` (options.go): `*options = opt`, a whole-value copy of
the given configuration into the one being built; the source `opt` is only
read. -/
def WithOptions (opt : Options) : RetryOption :=
  fun _ => opt

/-- Which `return` statement of the engine loop produced the result. -/
inductive ExitKind where
  | ctxExit
  | successExit
  | noRetryExit
  | exceedExit
deriving DecidableEq, Repr

/-- Value of `ctx.Err()` at a poll point: nil when no context is configured. -/
def ctxPoll (ctx : Option (Nat → Option GoError)) (cnt : Nat) : Option GoError :=
  match ctx with
  | some f => f cnt
  | none => none

/-- Model of `DoCtxWithOptions` (try.go), fuel-indexed.  State: `cnt` operations
invoked so far, `lastErr` the recorded last retryable error.  Each iteration:
poll the context; invoke the operation (incrementing `cnt`); on error, a
non-retryable error returns `combineErr`, reaching the attempt limit
(`maxAttempts > 0 && cnt >= maxAttempts`, with `cnt` already incremented)
returns `errors.Join(ErrRetryAttemptsExceed, combineErr(...))`; otherwise sleep
(no effect on the result), notify the handler (none either), record `lastErr`
only when `joinCtxErr` is set and the error is not a context error, and loop.
Result: the exit taken, the number of invocations performed, and the returned
error (`none` = nil). -/
def DoCtxWithOptions (ctx : Option (Nat → Option GoError)) (op : Nat → Option GoError)
    (o : Options) : Nat → Nat → Option GoError → Option (ExitKind × Nat × Option GoError)
  | 0, _, _ => none
  | fuel + 1, cnt, lastErr =>
    match ctxPoll ctx cnt with
    | some cerr => some (ExitKind.ctxExit, cnt, some (combineErr o.joinCtxErr cerr lastErr))
    | none =>
      match op cnt with
      | none => some (ExitKind.successExit, cnt + 1, none)
      | some err =>
        if o.matchError err = false then
          some (ExitKind.noRetryExit, cnt + 1, some (combineErr o.joinCtxErr err lastErr))
        else if 0 < o.maxAttempts ∧ o.maxAttempts ≤ ((cnt + 1 : Nat) : Int) then
          some (ExitKind.exceedExit, cnt + 1,
            some (GoError.join2 ErrRetryAttemptsExceed (combineErr o.joinCtxErr err lastErr)))
        else
          DoCtxWithOptions ctx op o fuel (cnt + 1)
            (if o.joinCtxErr
                && !(errIs err GoError.deadlineExceeded) && !(errIs err GoError.canceled)
             then some err else lastErr)

/-- Model of `GetCtxWithOptions` (try.go): identical loop, but the operation also
produces a value; the context exit returns the zero value (`empty`), every
other exit returns the value from the final invocation. -/
def GetCtxWithOptions {α : Type} (empty : α) (ctx : Option (Nat → Option GoError))
    (op : Nat → α × Option GoError) (o : Options) :
    Nat → Nat → Option GoError → Option (ExitKind × Nat × α × Option GoError)
  | 0, _, _ => none
  | fuel + 1, cnt, lastErr =>
    match ctxPoll ctx cnt with
    | some cerr =>
      some (ExitKind.ctxExit, cnt, empty, some (combineErr o.joinCtxErr cerr lastErr))
    | none =>
      match op cnt with
      | (v, none) => some (ExitKind.successExit, cnt + 1, v, none)
      | (v, some err) =>
        if o.matchError err = false then
          some (ExitKind.noRetryExit, cnt + 1, v, some (combineErr o.joinCtxErr err lastErr))
        else if 0 < o.maxAttempts ∧ o.maxAttempts ≤ ((cnt + 1 : Nat) : Int) then
          some (ExitKind.exceedExit, cnt + 1, v,
            some (GoError.join2 ErrRetryAttemptsExceed (combineErr o.joinCtxErr err lastErr)))
        else
          GetCtxWithOptions empty ctx op o fuel (cnt + 1)
            (if o.joinCtxErr
                && !(errIs err GoError.deadlineExceeded) && !(errIs err GoError.canceled)
             then some err else lastErr)

/-- State-threaded variant of `DoCtxWithOptions`: Go passes `Options` by value
and the loop body contains no assignment to it, so every `return` hands back
the configuration value the run holds at that point.  Used to state that a run
leaves its configuration unchanged. -/
def DoCtxWithOptionsThreaded (ctx : Option (Nat → Option GoError)) (op : Nat → Option GoError)
    (o : Options) : Nat → Nat → Option GoError →
    Option ((ExitKind × Nat × Option GoError) × Options)
  | 0, _, _ => none
  | fuel + 1, cnt, lastErr =>
    match ctxPoll ctx cnt with
    | some cerr =>
      some ((ExitKind.ctxExit, cnt, some (combineErr o.joinCtxErr cerr lastErr)), o)
    | none =>
      match op cnt with
      | none => some ((ExitKind.successExit, cnt + 1, none), o)
      | some err =>
        if o.matchError err = false then
          some ((ExitKind.noRetryExit, cnt + 1, some (combineErr o.joinCtxErr err lastErr)), o)
        else if 0 < o.maxAttempts ∧ o.maxAttempts ≤ ((cnt + 1 : Nat) : Int) then
          some ((ExitKind.exceedExit, cnt + 1,
            some (GoError.join2 ErrRetryAttemptsExceed (combineErr o.joinCtxErr err lastErr))), o)
        else
          DoCtxWithOptionsThreaded ctx op o fuel (cnt + 1)
            (if o.joinCtxErr
                && !(errIs err GoError.deadlineExceeded) && !(errIs err GoError.canceled)
             then some err else lastErr)

/-- Reflexivity of the chain test: every error matches itself. -/
lemma errIs_refl (e : GoError) : errIs e e = true := by
  cases e <;> simp [errIs]

/-- A join error contains whatever its left child contains. -/
lemma errIs_join2_left {a t : GoError} (b : GoError) (h : errIs a t = true) :
    errIs (GoError.join2 a b) t = true := by
  simp [errIs, h]

/-- A join error contains whatever its right child contains. -/
lemma errIs_join2_right {b t : GoError} (a : GoError) (h : errIs b t = true) :
    errIs (GoError.join2 a b) t = true := by
  simp [errIs, h]

/-- The combined error always contains the primary error `err`. -/
lemma errIs_combineErr (join : Bool) (err : GoError) (last : Option GoError) :
    errIs (combineErr join err last) err = true := by
  cases last with
  | none => exact errIs_refl err
  | some l =>
    unfold combineErr
    by_cases h : (join && (errIs err GoError.deadlineExceeded || errIs err GoError.canceled))
      = true
    · simp only [h, if_true]
      exact errIs_join2_left l (errIs_refl err)
    · simp only [Bool.not_eq_true] at h
      simp only [h, Bool.false_eq_true, if_false]
      exact errIs_refl err

/-- Combining with an empty history returns the primary error unchanged. -/
lemma combineErr_none (join : Bool) (err : GoError) : combineErr join err none = err := rfl

/-- With joining enabled and a context-sentinel primary error, `combineErr`
joins the history on. -/
lemma combineErr_ctx (err : GoError) (l : GoError)
    (h : err = GoError.canceled ∨ err = GoError.deadlineExceeded) :
    combineErr true err (some l) = GoError.join2 err l := by
  cases h with
  | inl h => subst h; rfl
  | inr h => subst h; rfl

/-- The matcher and excluded matcher do not read `joinCtxErr`, so error
classification is unaffected by it. -/
lemma matchError_joinCtxErr (o : Options) (b : Bool) (e : GoError) :
    Options.matchError { o with joinCtxErr := b } e = o.matchError e := rfl

/-- Any terminating run starting below the attempt limit performs at most
`maxAttempts` invocations. -/
lemma do_count_le (ctx : Option (Nat → Option GoError)) (op : Nat → Option GoError)
    (o : Options) (N : Nat) (hN : o.maxAttempts = (N : Int)) :
    ∀ fuel cnt l k c r, cnt < N →
      DoCtxWithOptions ctx op o fuel cnt l = some (k, c, r) → c ≤ N := by
  intro fuel
  induction fuel with
  | zero => intro cnt l k c r _ h; simp [DoCtxWithOptions] at h
  | succ fuel ih =>
    intro cnt l k c r hcnt h
    rw [DoCtxWithOptions] at h
    cases hp : ctxPoll ctx cnt with
    | some cerr =>
      simp only [hp, Option.some.injEq, Prod.mk.injEq] at h
      omega
    | none =>
      simp only [hp] at h
      cases hop : op cnt with
      | none =>
        simp only [hop, Option.some.injEq, Prod.mk.injEq] at h
        omega
      | some err =>
        simp only [hop] at h
        by_cases hm : o.matchError err = false
        · rw [if_pos hm] at h
          simp only [Option.some.injEq, Prod.mk.injEq] at h
          omega
        · rw [if_neg hm] at h
          by_cases hl : 0 < o.maxAttempts ∧ o.maxAttempts ≤ ((cnt + 1 : Nat) : Int)
          · rw [if_pos hl] at h
            simp only [Option.some.injEq, Prod.mk.injEq] at h
            omega
          · rw [if_neg hl] at h
            have hlt : cnt + 1 < N := by
              rw [hN] at hl
              push_neg at hl
              by_cases h0 : (0 : Int) < (N : Int)
              · have := hl h0
                exact_mod_cast this
              · omega
            exact ih (cnt + 1) _ k c r hlt h

/-- With fuel covering the remaining attempts, a run below a positive attempt
limit terminates (returns one of the four exits). -/
lemma do_terminates (ctx : Option (Nat → Option GoError)) (op : Nat → Option GoError)
    (o : Options) (N : Nat) (hN : o.maxAttempts = (N : Int)) (h0 : 0 < N) :
    ∀ fuel cnt l, cnt < N → N ≤ cnt + fuel →
      (DoCtxWithOptions ctx op o fuel cnt l).isSome := by
  intro fuel
  induction fuel with
  | zero => intro cnt l hcnt hfuel; omega
  | succ fuel ih =>
    intro cnt l hcnt hfuel
    rw [DoCtxWithOptions]
    cases hp : ctxPoll ctx cnt with
    | some cerr => simp [hp]
    | none =>
      simp only [hp]
      cases hop : op cnt with
      | none => simp
      | some err =>
        simp only [hop]
        by_cases hm : o.matchError err = false
        · rw [if_pos hm]; rfl
        · rw [if_neg hm]
          by_cases hl : 0 < o.maxAttempts ∧ o.maxAttempts ≤ ((cnt + 1 : Nat) : Int)
          · rw [if_pos hl]; rfl
          · rw [if_neg hl]
            have hlt : cnt + 1 < N := by
              rw [hN] at hl
              push_neg at hl
              have h0i : (0 : Int) < (N : Int) := by exact_mod_cast h0
              have := hl h0i
              exact_mod_cast this
            exact ih (cnt + 1) _ hlt (by omega)

/-- With no context and an operation that always fails retryably, the run
walks straight to the attempts-exceeded exit after exactly `maxAttempts`
invocations. -/
lemma do_always_fails (op : Nat → Option GoError) (o : Options) (N : Nat)
    (hN : o.maxAttempts = (N : Int)) (h0 : 0 < N)
    (hop : ∀ i, ∃ e, op i = some e ∧ o.matchError e = true) :
    ∀ fuel cnt l, cnt < N → N ≤ cnt + fuel →
      ∃ r, DoCtxWithOptions none op o fuel cnt l = some (ExitKind.exceedExit, N, some r) := by
  intro fuel
  induction fuel with
  | zero => intro cnt l hcnt hfuel; omega
  | succ fuel ih =>
    intro cnt l hcnt hfuel
    obtain ⟨e, hope, hmatch⟩ := hop cnt
    rw [DoCtxWithOptions]
    have hp : ctxPoll none cnt = none := rfl
    simp only [hp, hope]
    have hm : ¬ o.matchError e = false := by simp [hmatch]
    rw [if_neg hm]
    by_cases hl : 0 < o.maxAttempts ∧ o.maxAttempts ≤ ((cnt + 1 : Nat) : Int)
    · rw [if_pos hl]
      have h2 : N ≤ cnt + 1 := by
        rw [hN] at hl
        exact_mod_cast hl.2
      have hc : cnt + 1 = N := by omega
      exact ⟨_, by rw [hc]⟩
    · rw [if_neg hl]
      have hlt : cnt + 1 < N := by
        rw [hN] at hl
        push_neg at hl
        have h0i : (0 : Int) < (N : Int) := by exact_mod_cast h0
        have := hl h0i
        exact_mod_cast this
      exact ih (cnt + 1) _ hlt (by omega)

/-- Characterization of the attempts-exceeded exit: it happens right after an
invocation whose error was classified retryable, and the returned error is
exactly `errors.Join(ErrRetryAttemptsExceed, combineErr(joinCtxErr, err, lastErr))`. -/
lemma do_exceed_characterize (ctx : Option (Nat → Option GoError))
    (op : Nat → Option GoError) (o : Options) :
    ∀ fuel cnt l c r,
      DoCtxWithOptions ctx op o fuel cnt l = some (ExitKind.exceedExit, c, r) →
      ∃ e l', 0 < c ∧ op (c - 1) = some e ∧ o.matchError e = true ∧
        r = some (GoError.join2 ErrRetryAttemptsExceed (combineErr o.joinCtxErr e l')) := by
  intro fuel
  induction fuel with
  | zero => intro cnt l c r h; simp [DoCtxWithOptions] at h
  | succ fuel ih =>
    intro cnt l c r h
    rw [DoCtxWithOptions] at h
    cases hp : ctxPoll ctx cnt with
    | some cerr => simp only [hp, Option.some.injEq, Prod.mk.injEq] at h; exact absurd h.1 (by simp)
    | none =>
      simp only [hp] at h
      cases hop : op cnt with
      | none =>
        simp only [hop, Option.some.injEq, Prod.mk.injEq] at h
        exact absurd h.1 (by simp)
      | some err =>
        simp only [hop] at h
        by_cases hm : o.matchError err = false
        · rw [if_pos hm] at h
          simp only [Option.some.injEq, Prod.mk.injEq] at h
          exact absurd h.1 (by simp)
        · rw [if_neg hm] at h
          by_cases hl : 0 < o.maxAttempts ∧ o.maxAttempts ≤ ((cnt + 1 : Nat) : Int)
          · rw [if_pos hl] at h
            simp only [Option.some.injEq, Prod.mk.injEq] at h
            refine ⟨err, l, by omega, ?_, ?_, ?_⟩
            · have : c - 1 = cnt := by omega
              rw [this, hop]
            · simp only [Bool.not_eq_false] at hm
              exact hm
            · exact h.2.2.symm
          · rw [if_neg hl] at h
            exact ih (cnt + 1) _ c r h

/-- A concrete configuration: 3 attempts, no matchers, no backoff, no handler,
`joinCtxErr` unset. -/
def optPlain3 : Options :=
  { maxAttempts := 3, matcher := none, excludedMatcher := none,
    backoffStrategy := none, onRetry := false, joinCtxErr := false }

/-- A concrete operation that fails on every invocation with the same sentinel. -/
def opAlwaysFailed : Nat → Option GoError := fun _ => some (GoError.base "failed")

/-- C1: with `maxAttempts = N > 0`, any terminating run of `DoCtxWithOptions`
performs at most `N` invocations; a run given fuel `N` does terminate; and with
no context and an operation that always fails with an error classified
retryable, the run performs exactly `N` invocations and takes the
attempts-exceeded exit (for any sufficient fuel). -/
theorem DoCtx_invocation_count (ctx : Option (Nat → Option GoError))
    (op : Nat → Option GoError) (o : Options) (N : Nat)
    (hN : o.maxAttempts = (N : Int)) (h0 : 0 < N) :
    (∀ fuel k c r, DoCtxWithOptions ctx op o fuel 0 none = some (k, c, r) → c ≤ N)
    ∧ (DoCtxWithOptions ctx op o N 0 none).isSome
    ∧ ((∀ i, ∃ e, op i = some e ∧ o.matchError e = true) →
        ∀ fuel, N ≤ fuel →
          ∃ r, DoCtxWithOptions none op o fuel 0 none
            = some (ExitKind.exceedExit, N, some r)) := by
  refine ⟨?_, ?_, ?_⟩
  · intro fuel k c r h
    exact do_count_le ctx op o N hN fuel 0 none k c r h0 h
  · exact do_terminates ctx op o N hN h0 N 0 none h0 (by omega)
  · intro hop fuel hfuel
    exact do_always_fails op o N hN h0 hop fuel 0 none h0 (by omega)

/-- Witness for C1 at `N = 3` with an always-failing operation: the run is
invoked exactly 3 times and exits via the attempts-exceeded branch. -/
theorem DoCtx_invocation_count_witness :
    ∃ r, DoCtxWithOptions none opAlwaysFailed optPlain3 3 0 none
      = some (ExitKind.exceedExit, 3, some r) :=
  (DoCtx_invocation_count none opAlwaysFailed optPlain3 3 (by decide) (by decide)).2.2
    (fun i => ⟨GoError.base "failed", rfl, rfl⟩) 3 (by decide)

/-- C2 as amended: whenever a run of `DoCtxWithOptions` terminates through the
attempts-exceeded branch, the returned error is non-nil, of the exact shape
`errors.Join(ErrRetryAttemptsExceed, combineErr(joinCtxErr, finalErr, lastErr))`,
and its chain contains (via the `errors.Is` test, independently of everything
else in the chain) both the sentinel `ErrRetryAttemptsExceed` and the final
operation error — which at that branch is also the last error classified
retryable (`matchError` returned true for it just before the limit check).
The earlier recorded retryable error is part of the chain only when
`combineErr` joins it on, i.e. when `joinCtxErr` is set and the final error is
a context error. -/
theorem attemptsExceeded_error_structure (ctx : Option (Nat → Option GoError))
    (op : Nat → Option GoError) (o : Options) (fuel cnt : Nat) (l : Option GoError)
    (c : Nat) (r : Option GoError)
    (h : DoCtxWithOptions ctx op o fuel cnt l = some (ExitKind.exceedExit, c, r)) :
    ∃ e re, r = some re ∧ 0 < c ∧ op (c - 1) = some e ∧ o.matchError e = true ∧
      (∃ l', re = GoError.join2 ErrRetryAttemptsExceed (combineErr o.joinCtxErr e l')) ∧
      errIs re ErrRetryAttemptsExceed = true ∧ errIs re e = true := by
  obtain ⟨e, l', hc, hop, hm, hr⟩ := do_exceed_characterize ctx op o fuel cnt l c r h
  refine ⟨e, GoError.join2 ErrRetryAttemptsExceed (combineErr o.joinCtxErr e l'),
    hr, hc, hop, hm, ⟨l', rfl⟩, ?_, ?_⟩
  · exact errIs_join2_left _ (errIs_refl _)
  · exact errIs_join2_right _ (errIs_combineErr _ _ _)

/-- Witness for C2: the concrete 3-attempt always-failing run returns an error
chain containing the sentinel and the operation error. -/
theorem attemptsExceeded_error_structure_witness :
    ∃ e re,
      (some (GoError.join2 ErrRetryAttemptsExceed (GoError.base "failed"))
        : Option GoError) = some re
      ∧ 0 < 3 ∧ opAlwaysFailed (3 - 1) = some e ∧ optPlain3.matchError e = true
      ∧ (∃ l', re = GoError.join2 ErrRetryAttemptsExceed
          (combineErr optPlain3.joinCtxErr e l'))
      ∧ errIs re ErrRetryAttemptsExceed = true ∧ errIs re e = true :=
  attemptsExceeded_error_structure none opAlwaysFailed optPlain3 3 0 none 3
    (some (GoError.join2 ErrRetryAttemptsExceed (GoError.base "failed"))) (by decide)

/-- Counterexample to C3: with no matchers configured, `matchError` classifies
`context.Canceled` as retryable (there is no context special case in v2's
`matchError`), and a run with a nil context whose operation keeps returning
`context.Canceled` is retried to the attempt limit — 3 invocations, not an
immediate termination after 1. -/
theorem cancellation_classified_retryable_cex :
    (NewOptions []).matchError GoError.canceled = true
    ∧ optPlain3.matchError GoError.canceled = true
    ∧ DoCtxWithOptions none (fun _ => some GoError.canceled) optPlain3 3 0 none
        = some (ExitKind.exceedExit, 3,
            some (GoError.join2 ErrRetryAttemptsExceed GoError.canceled)) := by
  refine ⟨rfl, rfl, by decide⟩

/-- C3 as amended: when neither `retryMatcher` nor `excludeMatcher` is
configured, `matchError` classifies every error — including the cancellation
sentinels — as retryable, so an operation error equal to `context.Canceled`
does not terminate the loop by classification: with a nil context it is
retried until the attempt limit. -/
theorem matchError_default_retries_all (o : Options) (N : Nat)
    (hm : o.matcher = none) (he : o.excludedMatcher = none)
    (hN : o.maxAttempts = (N : Int)) (h0 : 0 < N) :
    (∀ err, o.matchError err = true)
    ∧ (∀ fuel, N ≤ fuel →
        ∃ r, DoCtxWithOptions none (fun _ => some GoError.canceled) o fuel 0 none
          = some (ExitKind.exceedExit, N, some r)) := by
  have hall : ∀ err, o.matchError err = true := by
    intro err
    unfold Options.matchError
    rw [hm, he]
    rfl
  refine ⟨hall, ?_⟩
  intro fuel hfuel
  exact do_always_fails _ o N hN h0
    (fun i => ⟨GoError.canceled, rfl, hall GoError.canceled⟩) fuel 0 none h0 (by omega)

/-- Witness for the amended C3 at the concrete 3-attempt configuration. -/
theorem matchError_default_retries_all_witness :
    (∀ err, optPlain3.matchError err = true)
    ∧ (∀ fuel, 3 ≤ fuel →
        ∃ r, DoCtxWithOptions none (fun _ => some GoError.canceled) optPlain3 fuel 0 none
          = some (ExitKind.exceedExit, 3, some r)) :=
  matchError_default_retries_all optPlain3 3 rfl rfl (by decide) (by decide)

/-- C4 evaluated at a failing input: `NewExponentialRandomBackoff` with
`initial = 100`, `multiplier = 2`, `maximum = 150`, jitter bound 64, attempt
index 3 and drawn jitter 10 returns `400 - 10 = 390` — the jitter is
subtracted from the uncapped value `initial * multiplier^2 = 400`, not from
the cap, so the result exceeds `maximum = 150` and differs from the
`cap - jitter = 140` the specification describes. -/
theorem exponentialRandomBackoff_exceeds_maximum :
    NewExponentialRandomBackoff 100 2 150 64 (GoError.base "x") 3 10 = some 390
    ∧ (150 : Int) < 390
    ∧ (390 : Int) ≠ 150 - 10 := by
  refine ⟨by decide, by decide, by decide⟩

/-- C7 evaluated at a failing input: with two errors configured, the matcher
built by `WithRetryFor(errA, errB)` consults only the first listed error
(`for i := range errs { return errors.Is(e, errs[i]) }` returns on the first
iteration), so the listed `errB` is classified non-retryable; symmetrically
`WithNoRetryFor(errA, errB)` fails to exclude the listed `errB`, which is
therefore still retried. The first listed error behaves as documented. -/
theorem retryFor_multi_checks_only_first :
    ((NewOptions [WithRetryFor (GoError.base "errA") [GoError.base "errB"]]).matchError
        (GoError.base "errB") = false)
    ∧ ((NewOptions [WithRetryFor (GoError.base "errA") [GoError.base "errB"]]).matchError
        (GoError.base "errA") = true)
    ∧ ((NewOptions [WithNoRetryFor (GoError.base "errA") [GoError.base "errB"]]).matchError
        (GoError.base "errB") = true)
    ∧ ((NewOptions [WithNoRetryFor (GoError.base "errA") [GoError.base "errB"]]).matchError
        (GoError.base "errA") = false) := by
  refine ⟨rfl, ?_, rfl, rfl⟩
  simp [NewOptions, WithRetryFor, Options.matchError, retryForLoop, errIs]

/-- An error that does not chain-contain a context sentinel is not chain-reachable
from that sentinel either (the sentinels are leaves, so their chain test is
plain equality). -/
lemma errIs_ctx_sentinel_false (x cerr : GoError)
    (hx1 : errIs x GoError.canceled = false)
    (hx2 : errIs x GoError.deadlineExceeded = false)
    (hc : cerr = GoError.canceled ∨ cerr = GoError.deadlineExceeded) :
    errIs cerr x = false := by
  rcases hc with h | h <;> subst h
  · have : GoError.canceled ≠ x := by
      intro hx
      rw [← hx] at hx1
      simp [errIs] at hx1
    simp [errIs, this]
  · have : GoError.deadlineExceeded ≠ x := by
      intro hx
      rw [← hx] at hx2
      simp [errIs] at hx2
    simp [errIs, this]

/-- Scenario lemma: the context stays quiet for the first `k` polls while the
operation fails with retryable non-context errors, then the context reports an
error at poll `k`.  The run exits through the context branch after exactly `k`
invocations, with the recorded last retryable error present exactly when
`joinCtxErr` is set. -/
lemma run_to_ctx_exit (o : Options) (f : Nat → Option GoError) (op : Nat → Option GoError)
    (e : Nat → GoError) (cerr : GoError) (k : Nat)
    (hf1 : ∀ i, i < k → f i = none) (hf2 : f k = some cerr)
    (hop : ∀ i, i < k → op i = some (e i))
    (hmatch : ∀ i, i < k → o.matchError (e i) = true)
    (hnc : ∀ i, i < k → errIs (e i) GoError.deadlineExceeded = false
      ∧ errIs (e i) GoError.canceled = false)
    (hlim : o.maxAttempts ≤ 0 ∨ (k : Int) < o.maxAttempts) :
    ∀ fuel j, j ≤ k → k - j < fuel →
      DoCtxWithOptions (some f) op o fuel j
        (if o.joinCtxErr = true ∧ 0 < j then some (e (j - 1)) else none)
      = some (ExitKind.ctxExit, k,
          some (combineErr o.joinCtxErr cerr
            (if o.joinCtxErr = true ∧ 0 < k then some (e (k - 1)) else none))) := by
  intro fuel
  induction fuel with
  | zero => intro j hj hfuel; omega
  | succ fuel ih =>
    intro j hj hfuel
    by_cases hjk : j = k
    · subst hjk
      rw [DoCtxWithOptions]
      simp only [ctxPoll, hf2]
    · have hjlt : j < k := lt_of_le_of_ne hj hjk
      rw [DoCtxWithOptions]
      simp only [ctxPoll, hf1 j hjlt, hop j hjlt]
      have hm : ¬ o.matchError (e j) = false := by simp [hmatch j hjlt]
      rw [if_neg hm]
      have hl : ¬ (0 < o.maxAttempts ∧ o.maxAttempts ≤ ((j + 1 : Nat) : Int)) := by
        rcases hlim with h | h
        · intro hc; omega
        · intro hc
          have : (j : Int) + 1 ≤ (k : Int) := by exact_mod_cast hjlt
          omega
      rw [if_neg hl]
      have hcond : (o.joinCtxErr && !(errIs (e j) GoError.deadlineExceeded)
          && !(errIs (e j) GoError.canceled)) = o.joinCtxErr := by
        rw [(hnc j hjlt).1, (hnc j hjlt).2]
        simp
      rw [hcond]
      have step := ih (j + 1) (by omega) (by omega)
      cases hb : o.joinCtxErr with
      | false =>
        simp only [hb, Bool.false_eq_true, false_and, if_false] at step ⊢
        exact step
      | true =>
        simp only [hb, true_and, if_true, Nat.succ_pos, if_pos, Nat.add_sub_cancel] at step ⊢
        exact step

/-- C5: the context stays quiet while the operation fails with retryable
non-context errors at attempts 1..k, then the cancellation signal is observed
at the top of the next iteration.  The run exits with the cancellation error;
with `joinCtxErr = true` the returned chain is `errors.Join(cerr, e(k-1))`,
containing the prior retryable error; with `joinCtxErr = false` it is `cerr`
alone and does not contain it. -/
theorem midrun_cancellation_join_behavior (o : Options) (f : Nat → Option GoError)
    (op : Nat → Option GoError) (e : Nat → GoError) (cerr : GoError) (k fuel : Nat)
    (hk : 0 < k) (hfuel : k < fuel)
    (hf1 : ∀ i, i < k → f i = none) (hf2 : f k = some cerr)
    (hcerr : cerr = GoError.canceled ∨ cerr = GoError.deadlineExceeded)
    (hop : ∀ i, i < k → op i = some (e i))
    (hmatch : ∀ i, i < k → o.matchError (e i) = true)
    (hnc : ∀ i, i < k → errIs (e i) GoError.deadlineExceeded = false
      ∧ errIs (e i) GoError.canceled = false)
    (hlim : o.maxAttempts ≤ 0 ∨ (k : Int) < o.maxAttempts) :
    (DoCtxWithOptions (some f) op { o with joinCtxErr := true } fuel 0 none
        = some (ExitKind.ctxExit, k, some (GoError.join2 cerr (e (k - 1))))
      ∧ errIs (GoError.join2 cerr (e (k - 1))) cerr = true
      ∧ errIs (GoError.join2 cerr (e (k - 1))) (e (k - 1)) = true)
    ∧ (DoCtxWithOptions (some f) op { o with joinCtxErr := false } fuel 0 none
        = some (ExitKind.ctxExit, k, some cerr)
      ∧ errIs cerr (e (k - 1)) = false) := by
  have hrunT := run_to_ctx_exit { o with joinCtxErr := true } f op e cerr k hf1 hf2 hop
    (fun i hi => by rw [matchError_joinCtxErr]; exact hmatch i hi) hnc hlim fuel 0
    (by omega) (by omega)
  have hrunF := run_to_ctx_exit { o with joinCtxErr := false } f op e cerr k hf1 hf2 hop
    (fun i hi => by rw [matchError_joinCtxErr]; exact hmatch i hi) hnc hlim fuel 0
    (by omega) (by omega)
  simp only [show ({ o with joinCtxErr := true } : Options).joinCtxErr = true from rfl,
    show ({ o with joinCtxErr := false } : Options).joinCtxErr = false from rfl,
    true_and, false_and, and_true, and_false, if_false, lt_irrefl, if_neg,
    Bool.false_eq_true] at hrunT hrunF
  rw [if_pos hk] at hrunT
  rw [combineErr_ctx cerr (e (k - 1)) hcerr] at hrunT
  refine ⟨⟨hrunT, ?_, ?_⟩, ⟨by rw [combineErr_none] at hrunF; exact hrunF, ?_⟩⟩
  · exact errIs_join2_left _ (errIs_refl _)
  · exact errIs_join2_right _ (errIs_refl _)
  · exact errIs_ctx_sentinel_false (e (k - 1)) cerr (hnc (k - 1) (by omega)).2
      (hnc (k - 1) (by omega)).1 hcerr

/-- Concrete context trace for the C5 witness: quiet at poll 0, cancelled from
poll 1 on (the operation cancelled its context during the first attempt). -/
def ctxCancelAfterFirst : Nat → Option GoError :=
  fun i => if i = 0 then none else some GoError.canceled

/-- Witness for C5 at `k = 1`: one retryable failure, then the cancellation is
observed; joining keeps the prior error in the chain, not joining drops it. -/
theorem midrun_cancellation_join_behavior_witness :
    (DoCtxWithOptions (some ctxCancelAfterFirst) opAlwaysFailed
        { optPlain3 with joinCtxErr := true } 3 0 none
        = some (ExitKind.ctxExit, 1,
            some (GoError.join2 GoError.canceled (GoError.base "failed")))
      ∧ errIs (GoError.join2 GoError.canceled (GoError.base "failed")) GoError.canceled = true
      ∧ errIs (GoError.join2 GoError.canceled (GoError.base "failed"))
          (GoError.base "failed") = true)
    ∧ (DoCtxWithOptions (some ctxCancelAfterFirst) opAlwaysFailed
        { optPlain3 with joinCtxErr := false } 3 0 none
        = some (ExitKind.ctxExit, 1, some GoError.canceled)
      ∧ errIs GoError.canceled (GoError.base "failed") = false) :=
  midrun_cancellation_join_behavior optPlain3 ctxCancelAfterFirst opAlwaysFailed
    (fun _ => GoError.base "failed") GoError.canceled 1 3 (by decide) (by decide)
    (fun i hi => by
      have : i = 0 := by omega
      subst this
      rfl)
    rfl (Or.inl rfl)
    (fun i hi => rfl)
    (fun i hi => rfl)
    (fun i hi => ⟨rfl, rfl⟩)
    (Or.inr (by decide))

/-- C6: the cancellation signal has already fired at poll 0, before any
invocation.  Both engine variants return after 0 invocations (the operation is
never called), the value variant returns the zero value, and the returned
error is the context error itself, which passes the structural
"is cancellation" test. -/
theorem precancelled_never_invokes {α : Type} (empty : α)
    (op : Nat → Option GoError) (gop : Nat → α × Option GoError)
    (o : Options) (f : Nat → Option GoError) (cerr : GoError) (fuel : Nat)
    (hfuel : 0 < fuel) (hf : f 0 = some cerr)
    (hcerr : cerr = GoError.canceled ∨ cerr = GoError.deadlineExceeded) :
    DoCtxWithOptions (some f) op o fuel 0 none = some (ExitKind.ctxExit, 0, some cerr)
    ∧ GetCtxWithOptions empty (some f) gop o fuel 0 none
        = some (ExitKind.ctxExit, 0, empty, some cerr)
    ∧ (errIs cerr GoError.canceled = true ∨ errIs cerr GoError.deadlineExceeded = true) := by
  obtain ⟨fuel, rfl⟩ : ∃ m, fuel = m + 1 := ⟨fuel - 1, by omega⟩
  refine ⟨?_, ?_, ?_⟩
  · rw [DoCtxWithOptions]
    simp only [ctxPoll, hf]
    rfl
  · rw [GetCtxWithOptions]
    simp only [ctxPoll, hf]
    rfl
  · rcases hcerr with h | h <;> subst h
    · exact Or.inl rfl
    · exact Or.inr rfl

/-- Witness for C6: a context cancelled before the run starts. -/
theorem precancelled_never_invokes_witness :
    DoCtxWithOptions (some (fun _ => some GoError.canceled)) opAlwaysFailed optPlain3 3 0 none
      = some (ExitKind.ctxExit, 0, some GoError.canceled)
    ∧ GetCtxWithOptions (0 : Int) (some (fun _ => some GoError.canceled))
        (fun i => ((i : Int), some (GoError.base "failed"))) optPlain3 3 0 none
      = some (ExitKind.ctxExit, 0, (0 : Int), some GoError.canceled)
    ∧ (errIs GoError.canceled GoError.canceled = true
        ∨ errIs GoError.canceled GoError.deadlineExceeded = true) :=
  precancelled_never_invokes (0 : Int) opAlwaysFailed
    (fun i => ((i : Int), some (GoError.base "failed")))
    optPlain3 (fun _ => some GoError.canceled) GoError.canceled 3
    (by decide) rfl (Or.inl rfl)

/-- Every return of the state-threaded run hands back exactly the configuration
value it was given: the loop body contains no write to `options`. -/
lemma threaded_preserves (ctx : Option (Nat → Option GoError)) (op : Nat → Option GoError)
    (o : Options) :
    ∀ fuel cnt l r, DoCtxWithOptionsThreaded ctx op o fuel cnt l = some r → r.2 = o := by
  intro fuel
  induction fuel with
  | zero => intro cnt l r h; simp [DoCtxWithOptionsThreaded] at h
  | succ fuel ih =>
    intro cnt l r h
    rw [DoCtxWithOptionsThreaded] at h
    cases hp : ctxPoll ctx cnt with
    | some cerr =>
      simp only [hp, Option.some.injEq] at h
      rw [← h]
    | none =>
      simp only [hp] at h
      cases hop : op cnt with
      | none =>
        simp only [hop, Option.some.injEq] at h
        rw [← h]
      | some err =>
        simp only [hop] at h
        by_cases hm : o.matchError err = false
        · rw [if_pos hm] at h
          simp only [Option.some.injEq] at h
          rw [← h]
        · rw [if_neg hm] at h
          by_cases hl : 0 < o.maxAttempts ∧ o.maxAttempts ≤ ((cnt + 1 : Nat) : Int)
          · rw [if_pos hl] at h
            simp only [Option.some.injEq] at h
            rw [← h]
          · rw [if_neg hl] at h
            exact ih (cnt + 1) _ r h

/-- The state-threaded run computes the same result as the plain model: its
first component is `DoCtxWithOptions`. -/
lemma threaded_fst (ctx : Option (Nat → Option GoError)) (op : Nat → Option GoError)
    (o : Options) :
    ∀ fuel cnt l, (DoCtxWithOptionsThreaded ctx op o fuel cnt l).map Prod.fst
      = DoCtxWithOptions ctx op o fuel cnt l := by
  intro fuel
  induction fuel with
  | zero => intro cnt l; rfl
  | succ fuel ih =>
    intro cnt l
    rw [DoCtxWithOptionsThreaded, DoCtxWithOptions]
    cases hp : ctxPoll ctx cnt with
    | some cerr => simp only [hp]; rfl
    | none =>
      simp only [hp]
      cases hop : op cnt with
      | none => simp only [hop]; rfl
      | some err =>
        simp only [hop]
        by_cases hm : o.matchError err = false
        · rw [if_pos hm, if_pos hm]
          rfl
        · rw [if_neg hm, if_neg hm]
          by_cases hl : 0 < o.maxAttempts ∧ o.maxAttempts ≤ ((cnt + 1 : Nat) : Int)
          · rw [if_pos hl, if_pos hl]
            rfl
          · rw [if_neg hl, if_neg hl]
            exact ih (cnt + 1) _

/-- C8: a run never mutates its configuration — the state-threaded model (whose
result agrees with `DoCtxWithOptions`) returns the whole `Options` record it
was given, so one configuration value can be reused across runs.  Moreover the
per-run override pattern of the tests works on unchanged inputs:
`NewOptions [WithAttempts 1]` has `maxAttempts = 1`, and building a new
configuration from it with `WithOptions` followed by `WithAttempts 2` yields
`maxAttempts = 2` without touching the source value. -/
theorem run_preserves_options (ctx : Option (Nat → Option GoError))
    (op : Nat → Option GoError) (o : Options) (fuel cnt : Nat) (l : Option GoError)
    (r : (ExitKind × Nat × Option GoError) × Options)
    (h : DoCtxWithOptionsThreaded ctx op o fuel cnt l = some r) :
    r.2 = o
    ∧ (DoCtxWithOptionsThreaded ctx op o fuel cnt l).map Prod.fst
        = DoCtxWithOptions ctx op o fuel cnt l
    ∧ (NewOptions [WithAttempts 1]).maxAttempts = 1
    ∧ (NewOptions [WithOptions (NewOptions [WithAttempts 1]), WithAttempts 2]).maxAttempts = 2 :=
  ⟨threaded_preserves ctx op o fuel cnt l r h, threaded_fst ctx op o fuel cnt l, rfl, rfl⟩

/-- Witness for C8: the concrete 3-attempt always-failing run returns its
configuration unchanged. -/
theorem run_preserves_options_witness :
    ((ExitKind.exceedExit, 3,
        some (GoError.join2 ErrRetryAttemptsExceed (GoError.base "failed"))), optPlain3).2
      = optPlain3
    ∧ (DoCtxWithOptionsThreaded none opAlwaysFailed optPlain3 3 0 none).map Prod.fst
        = DoCtxWithOptions none opAlwaysFailed optPlain3 3 0 none
    ∧ (NewOptions [WithAttempts 1]).maxAttempts = 1
    ∧ (NewOptions [WithOptions (NewOptions [WithAttempts 1]), WithAttempts 2]).maxAttempts = 2 :=
  run_preserves_options none opAlwaysFailed optPlain3 3 0 none
    ((ExitKind.exceedExit, 3,
        some (GoError.join2 ErrRetryAttemptsExceed (GoError.base "failed"))), optPlain3)
    (by rfl)

/-- C9: every jitter-based constructor produces a strategy whose invocation
panics (`none`, the model of `rand.Int63n`'s panic on a non-positive bound)
whenever the configured jitter is zero or negative, for every error, attempt
index and draw — the jitter must be strictly positive. -/
theorem jitter_nonpositive_panics (s : Strategy) (minBackoff initialBackoff multiplier
    incremental maximumBackoff jitter : Int) (e : GoError) (i : Nat) (draw : Int)
    (hj : jitter ≤ 0) :
    NewBackoffWithJitter s jitter e i draw = none
    ∧ NewRandomBackoff minBackoff jitter e i draw = none
    ∧ NewExponentialRandomBackoff initialBackoff multiplier maximumBackoff jitter e i draw
        = none
    ∧ NewIncrementalRandomBackoff initialBackoff incremental maximumBackoff jitter e i draw
        = none := by
  have hr : randInt63n jitter draw = none := by
    unfold randInt63n
    rw [if_pos hj]
  refine ⟨?_, ?_, ?_, ?_⟩
  · unfold NewBackoffWithJitter
    cases s e i draw <;> simp [hr]
  · unfold NewRandomBackoff NewBackoffWithJitter NewFixedBackoff
    simp [hr]
  · unfold NewExponentialRandomBackoff
    simp [hr]
  · unfold NewIncrementalRandomBackoff
    simp [hr]

/-- Witness for C9 at jitter 0: all four constructors produce a panicking
strategy. -/
theorem jitter_nonpositive_panics_witness :
    NewBackoffWithJitter (NewFixedBackoff 5) 0 (GoError.base "x") 1 0 = none
    ∧ NewRandomBackoff 5 0 (GoError.base "x") 1 0 = none
    ∧ NewExponentialRandomBackoff 5 2 0 0 (GoError.base "x") 1 0 = none
    ∧ NewIncrementalRandomBackoff 5 2 0 0 (GoError.base "x") 1 0 = none :=
  jitter_nonpositive_panics (NewFixedBackoff 5) 5 5 2 2 0 0 (GoError.base "x") 1 0
    (by decide)

/-- C10: in the value-returning engine, a context exit returns the zero value
(`empty`) alongside a non-nil error, while a non-retryable or
attempts-exceeded exit returns the value produced by the final invocation of
the operation, also alongside a non-nil error. -/
theorem get_value_on_terminal_error {α : Type} (empty : α)
    (ctx : Option (Nat → Option GoError)) (op : Nat → α × Option GoError) (o : Options) :
    ∀ fuel cnt l k c v r,
      GetCtxWithOptions empty ctx op o fuel cnt l = some (k, c, v, r) →
      (k = ExitKind.ctxExit → v = empty ∧ r ≠ none)
      ∧ ((k = ExitKind.noRetryExit ∨ k = ExitKind.exceedExit) →
          0 < c ∧ v = (op (c - 1)).1 ∧ r ≠ none) := by
  intro fuel
  induction fuel with
  | zero => intro cnt l k c v r h; simp [GetCtxWithOptions] at h
  | succ fuel ih =>
    intro cnt l k c v r h
    rw [GetCtxWithOptions] at h
    cases hp : ctxPoll ctx cnt with
    | some cerr =>
      simp only [hp, Option.some.injEq, Prod.mk.injEq] at h
      obtain ⟨hk, hc, hv, hr⟩ := h
      constructor
      · intro _; exact ⟨hv.symm, by rw [← hr]; simp⟩
      · intro hne; rw [← hk] at hne; rcases hne with hne | hne <;> exact absurd hne (by simp)
    | none =>
      simp only [hp] at h
      cases hop : op cnt with
      | mk v0 err0 =>
        cases err0 with
        | none =>
          simp only [hop, Option.some.injEq, Prod.mk.injEq] at h
          obtain ⟨hk, hc, hv, hr⟩ := h
          constructor
          · intro hne; rw [← hk] at hne; exact absurd hne (by simp)
          · intro hne; rw [← hk] at hne
            rcases hne with hne | hne <;> exact absurd hne (by simp)
        | some err =>
          simp only [hop] at h
          by_cases hm : o.matchError err = false
          · rw [if_pos hm] at h
            simp only [Option.some.injEq, Prod.mk.injEq] at h
            obtain ⟨hk, hc, hv, hr⟩ := h
            constructor
            · intro hne; rw [← hk] at hne; exact absurd hne (by simp)
            · intro _
              refine ⟨by omega, ?_, by rw [← hr]; simp⟩
              have : c - 1 = cnt := by omega
              rw [this, hop, ← hv]
          · rw [if_neg hm] at h
            by_cases hl : 0 < o.maxAttempts ∧ o.maxAttempts ≤ ((cnt + 1 : Nat) : Int)
            · rw [if_pos hl] at h
              simp only [Option.some.injEq, Prod.mk.injEq] at h
              obtain ⟨hk, hc, hv, hr⟩ := h
              constructor
              · intro hne; rw [← hk] at hne; exact absurd hne (by simp)
              · intro _
                refine ⟨by omega, ?_, by rw [← hr]; simp⟩
                have : c - 1 = cnt := by omega
                rw [this, hop, ← hv]
            · rw [if_neg hl] at h
              exact ih (cnt + 1) _ k c v r h

/-- Witness for C10: a concrete 2-attempt value-returning run exceeds its
limit; the returned value is the one from the final (second) invocation. -/
theorem get_value_on_terminal_error_witness :
    (ExitKind.exceedExit = ExitKind.ctxExit → (1 : Int) = 0
        ∧ (some (GoError.join2 ErrRetryAttemptsExceed (GoError.base "failed"))
            : Option GoError) ≠ none)
    ∧ ((ExitKind.exceedExit = ExitKind.noRetryExit
          ∨ ExitKind.exceedExit = ExitKind.exceedExit) →
        0 < 2 ∧ (1 : Int) = ((fun i => ((i : Int), some (GoError.base "failed"))
            : Nat → Int × Option GoError) (2 - 1)).1
          ∧ (some (GoError.join2 ErrRetryAttemptsExceed (GoError.base "failed"))
              : Option GoError) ≠ none) :=
  get_value_on_terminal_error (0 : Int) none
    (fun i => ((i : Int), some (GoError.base "failed")))
    { optPlain3 with maxAttempts := 2 } 2 0 none
    ExitKind.exceedExit 2 (1 : Int)
    (some (GoError.join2 ErrRetryAttemptsExceed (GoError.base "failed")))
    (by decide)

/-- An operation failing with a first error at attempt 1 and a second, different
error from attempt 2 on. -/
def opTwoErrors : Nat → Option GoError :=
  fun i => if i = 0 then some (GoError.base "e1") else some (GoError.base "e2")

/-- Counterexample to C2 as stated: with `joinCtxErr = true`, two attempts, a
retryable error `e1` at attempt 1 (recorded as the last retryable error) and a
different retryable non-context error `e2` at attempt 2, the run terminates at
the attempt limit but the returned chain is `Join(ErrRetryAttemptsExceed, e2)`:
it does not contain the recorded last retryable error `e1`, because
`combineErr` joins the recorded error on only when the final error is a
context error. -/
theorem attemptsExceeded_drops_last_retryable_cex :
    DoCtxWithOptions none opTwoErrors
        { maxAttempts := 2, matcher := none, excludedMatcher := none,
          backoffStrategy := none, onRetry := false, joinCtxErr := true } 2 0 none
      = some (ExitKind.exceedExit, 2,
          some (GoError.join2 ErrRetryAttemptsExceed (GoError.base "e2")))
    ∧ errIs (GoError.join2 ErrRetryAttemptsExceed (GoError.base "e2"))
        (GoError.base "e1") = false := by
  refine ⟨by decide, by decide⟩
